import Mathlib

/-!
Verification of the root-firmware camera daemon (Go) against its
natural-language specification.  Shallow embedding: each Go function that a
claim depends on is translated into an executable Lean definition operating on
explicit state; external primitives (the AES block cipher, the X25519
function, SHA-256, `json.Unmarshal`) are parameters of the model, and every
byte is a `Nat` known (or hypothesised) to be `< 256`.
-/

set_option maxHeartbeats 1000000
set_option maxRecDepth 10000

namespace RootFirmware

/-! ## Bytes and standard base64 (`encoding/base64` StdEncoding)

`Session.Encrypt` returns `base64.StdEncoding.EncodeToString(...)` and
`Session.Decrypt` begins with `base64.StdEncoding.DecodeString(...)`
(src/unnamed/part_002, package `encryption`). -/

/-- Standard base64 alphabet: index `n < 64` to character. -/
def b64char (n : Nat) : Char :=
  if n < 26 then Char.ofNat (65 + n)
  else if n < 52 then Char.ofNat (97 + (n - 26))
  else if n < 62 then Char.ofNat (48 + (n - 52))
  else if n = 62 then '+'
  else '/'

/-- Inverse of the standard base64 alphabet; `none` for characters outside it. -/
def b64val (c : Char) : Option Nat :=
  if 'A' ≤ c ∧ c ≤ 'Z' then some (c.toNat - 65)
  else if 'a' ≤ c ∧ c ≤ 'z' then some (c.toNat - 97 + 26)
  else if '0' ≤ c ∧ c ≤ '9' then some (c.toNat - 48 + 52)
  else if c = '+' then some 62
  else if c = '/' then some 63
  else none

/-- Standard base64 encoding with padding, three input bytes per four output
characters (Go `base64.StdEncoding.EncodeToString`). -/
def b64encode : List Nat → List Char
  | [] => []
  | [b0] => [b64char (b0 / 4), b64char (b0 % 4 * 16), '=', '=']
  | [b0, b1] => [b64char (b0 / 4), b64char (b0 % 4 * 16 + b1 / 16),
                 b64char (b1 % 16 * 4), '=']
  | b0 :: b1 :: b2 :: rest =>
      b64char (b0 / 4) :: b64char (b0 % 4 * 16 + b1 / 16) ::
      b64char (b1 % 16 * 4 + b2 / 64) :: b64char (b2 % 64) :: b64encode rest

/-- Standard base64 decoding (Go `base64.StdEncoding.DecodeString`); fails on
characters outside the alphabet, on a length that is not a multiple of four,
and on padding that is not final. -/
def b64decode : List Char → Option (List Nat)
  | [] => some []
  | a :: b :: c :: d :: rest =>
      (b64val a).bind fun x =>
      (b64val b).bind fun y =>
      if c = '=' ∧ d = '=' ∧ rest = [] then some [x * 4 + y / 16]
      else
        (b64val c).bind fun z =>
        if d = '=' ∧ rest = [] then some [x * 4 + y / 16, y % 16 * 16 + z / 4]
        else
          (b64val d).bind fun w =>
          (b64decode rest).bind fun r =>
          some ((x * 4 + y / 16) :: (y % 16 * 16 + z / 4) :: (z % 4 * 64 + w) :: r)
  | _ => none

theorem b64val_b64char {n : Nat} (h : n < 64) : b64val (b64char n) = some n := by
  revert n h; decide

theorem b64char_ne_pad {n : Nat} (h : n < 64) : b64char n ≠ '=' := by
  revert n h; decide

/-- Decoding inverts encoding on byte lists. -/
theorem b64decode_b64encode :
    ∀ (l : List Nat), (∀ b ∈ l, b < 256) → b64decode (b64encode l) = some l
  | [], _ => rfl
  | [b0], h => by
      have hb0 : b0 < 256 := h b0 (by simp)
      rw [b64encode, b64decode]
      have e0 : b0 / 4 * 4 + b0 % 4 * 16 / 16 = b0 := by omega
      simp only [b64val_b64char (show b0 / 4 < 64 by omega),
        b64val_b64char (show b0 % 4 * 16 < 64 by omega), Option.some_bind,
        and_self, true_and, and_true, if_true, e0]
  | [b0, b1], h => by
      have hb0 : b0 < 256 := h b0 (by simp)
      have hb1 : b1 < 256 := h b1 (by simp)
      rw [b64encode, b64decode]
      have hc : b64char (b1 % 16 * 4) ≠ '=' :=
        b64char_ne_pad (show b1 % 16 * 4 < 64 by omega)
      have e0 : b0 / 4 * 4 + (b0 % 4 * 16 + b1 / 16) / 16 = b0 := by omega
      have e1 : (b0 % 4 * 16 + b1 / 16) % 16 * 16 + b1 % 16 * 4 / 4 = b1 := by omega
      simp only [b64val_b64char (show b0 / 4 < 64 by omega),
        b64val_b64char (show b0 % 4 * 16 + b1 / 16 < 64 by omega),
        b64val_b64char (show b1 % 16 * 4 < 64 by omega), Option.some_bind,
        and_self, true_and, and_true, if_true, hc, if_false, false_and,
        if_neg hc, e0, e1]
  | b0 :: b1 :: b2 :: rest, h => by
      have hb0 : b0 < 256 := h b0 (by simp)
      have hb1 : b1 < 256 := h b1 (by simp)
      have hb2 : b2 < 256 := h b2 (by simp)
      have ih := b64decode_b64encode rest (fun b hb => h b (by simp [hb]))
      rw [b64encode, b64decode]
      have hc : b64char (b1 % 16 * 4 + b2 / 64) ≠ '=' :=
        b64char_ne_pad (show b1 % 16 * 4 + b2 / 64 < 64 by omega)
      have hd : b64char (b2 % 64) ≠ '=' :=
        b64char_ne_pad (show b2 % 64 < 64 by omega)
      have e0 : b0 / 4 * 4 + (b0 % 4 * 16 + b1 / 16) / 16 = b0 := by omega
      have e1 : (b0 % 4 * 16 + b1 / 16) % 16 * 16 + (b1 % 16 * 4 + b2 / 64) / 4 = b1 := by
        omega
      have e2 : (b1 % 16 * 4 + b2 / 64) % 4 * 64 + b2 % 64 = b2 := by omega
      simp only [b64val_b64char (show b0 / 4 < 64 by omega),
        b64val_b64char (show b0 % 4 * 16 + b1 / 16 < 64 by omega),
        b64val_b64char (show b1 % 16 * 4 + b2 / 64 < 64 by omega),
        b64val_b64char (show b2 % 64 < 64 by omega), Option.some_bind,
        hc, hd, false_and, if_false, ih, e0, e1, e2]

/-! ## AES-256-GCM (Go `crypto/cipher.NewGCM` over `crypto/aes`)

The AES-256 block cipher itself is external library code; the model is
parameterised by a block-cipher function `E : key → block → block`.  The GCM
mode of operation (CTR encryption, GHASH in GF(2^128), 16-byte tag, 12-byte
nonce) is spelled out, because `Session.Encrypt`/`Session.Decrypt`
(src/unnamed/part_002) rely on its structure: `Seal` appends
`ciphertext ‖ tag` to the nonce, `Open` recomputes and checks the tag. -/

/-- A keyed 16-byte block cipher (stands for AES-256). -/
def BlockCipher : Type := List Nat → List Nat → List Nat

/-- Big-endian byte list to natural number. -/
def natOfBytesBE (l : List Nat) : Nat := l.foldl (fun a b => a * 256 + b) 0

/-- Natural number to big-endian byte list of the given width. -/
def bytesOfNatBE (width n : Nat) : List Nat :=
  (List.range width).map (fun i => n / 256 ^ (width - 1 - i) % 256)

/-- Increment the last 32 bits of a 16-byte counter block (GCM `inc32`). -/
def inc32 (blk : List Nat) : List Nat :=
  blk.take 12 ++ bytesOfNatBE 4 ((natOfBytesBE (blk.drop 12) + 1) % 2 ^ 32)

/-- `n` successive counter blocks fed through the block cipher. -/
def ctrBlocks (E : BlockCipher) (key : List Nat) : List Nat → Nat → List (List Nat)
  | _, 0 => []
  | cb, n + 1 => E key cb :: ctrBlocks E key (inc32 cb) n

/-- CTR-mode keystream XOR (GCM `GCTR`): used both to encrypt and to decrypt. -/
def gctr (E : BlockCipher) (key icb input : List Nat) : List Nat :=
  List.zipWith (fun a b => a ^^^ b) input
    ((ctrBlocks E key icb ((input.length + 15) / 16)).flatten)

/-- One step of the shift-and-reduce multiplication in GF(2^128)
(reduction polynomial bits `0xe1` at the top, as in GCM). -/
def gfMulGo : Nat → Nat → Nat → Nat → Nat
  | 0, _, _, z => z
  | i + 1, x, v, z =>
      gfMulGo i x
        (if v % 2 = 1 then v / 2 ^^^ (0xe1 <<< 120) else v / 2)
        (if x / 2 ^ i % 2 = 1 then z ^^^ v else z)

/-- Multiplication in GF(2^128) with GCM's bit ordering. -/
def gfMul (x y : Nat) : Nat := gfMulGo 128 x y 0

/-- Split a byte list into 16-byte blocks, zero-padding the final block
(fuel-based recursion; `fuel = l.length` always suffices). -/
def chunk16Go : Nat → List Nat → List (List Nat)
  | _, [] => []
  | 0, l => [l ++ List.replicate (16 - l.length) 0]
  | fuel + 1, l =>
      if l.length ≤ 16 then [l ++ List.replicate (16 - l.length) 0]
      else l.take 16 :: chunk16Go fuel (l.drop 16)

/-- Split a byte list into 16-byte blocks, zero-padding the final block. -/
def chunk16 (l : List Nat) : List (List Nat) := chunk16Go l.length l

/-- GHASH over complete 16-byte blocks. -/
def ghashBlocks (H : Nat) (blocks : List (List Nat)) : Nat :=
  blocks.foldl (fun y blk => gfMul (y ^^^ natOfBytesBE blk) H) 0

/-- The 16-byte GCM authentication tag for ciphertext `C` (no associated
data), `tag = E(K, J0) ⊕ GHASH_H(pad(C) ‖ len64(A)=0 ‖ len64(C))`. -/
def gcmTag (E : BlockCipher) (key nonce C : List Nat) : List Nat :=
  let H := natOfBytesBE (E key (List.replicate 16 0))
  let S := ghashBlocks H (chunk16 C ++ [bytesOfNatBE 8 0 ++ bytesOfNatBE 8 (C.length * 8)])
  List.zipWith (fun a b => a ^^^ b) (E key (nonce ++ [0, 0, 0, 1])) (bytesOfNatBE 16 S)

/-- Go `gcm.Seal(nil, nonce, pt, nil)`: `ciphertext ‖ tag`. -/
def gcmSeal (E : BlockCipher) (key nonce pt : List Nat) : List Nat :=
  let C := gctr E key (inc32 (nonce ++ [0, 0, 0, 1])) pt
  C ++ gcmTag E key nonce C

/-- Go `gcm.Open(nil, nonce, ct, nil)`: split off the 16-byte tag, check it,
CTR-decrypt. -/
def gcmOpen (E : BlockCipher) (key nonce ct : List Nat) : Option (List Nat) :=
  if ct.length < 16 then none
  else
    let C := ct.take (ct.length - 16)
    let T := ct.drop (ct.length - 16)
    if T = gcmTag E key nonce C then
      some (gctr E key (inc32 (nonce ++ [0, 0, 0, 1])) C)
    else none

/-! ## `encryption` package: sessions (src/unnamed/part_002, lines 193-245) -/

/-- `encryption.FromSharedSecret`: a session is valid only for a 32-byte key. -/
def FromSharedSecret (ss : List Nat) : Option (List Nat) :=
  if ss.length = 32 then some ss else none

/-- `Session.Encrypt`: fresh 12-byte `nonce` (CSPRNG output is a parameter),
`base64(nonce ‖ gcm.Seal(plaintext))`. -/
def Session.Encrypt (E : BlockCipher) (key nonce pt : List Nat) : String :=
  String.mk (b64encode (nonce ++ gcmSeal E key nonce pt))

/-- `Session.Decrypt`: base64-decode, reject if shorter than the 12-byte
nonce, split the nonce off the front, `gcm.Open` the rest. -/
def Session.Decrypt (E : BlockCipher) (key : List Nat) (ctB64 : String) :
    Option (List Nat) :=
  (b64decode ctB64.data).bind fun ciphertext =>
  if ciphertext.length < 12 then none
  else gcmOpen E key (ciphertext.take 12) (ciphertext.drop 12)

/-! ### Round-trip lemmas -/

theorem mem_zipWith_xor {l1 l2 : List Nat} {x : Nat}
    (h : x ∈ List.zipWith (fun a b => a ^^^ b) l1 l2) :
    ∃ a ∈ l1, ∃ b ∈ l2, x = a ^^^ b := by
  induction l1 generalizing l2 with
  | nil => simp at h
  | cons a t ih =>
      cases l2 with
      | nil => simp at h
      | cons b t2 =>
          simp only [List.zipWith_cons_cons, List.mem_cons] at h
          rcases h with h | h
          · exact ⟨a, by simp, b, by simp, h⟩
          · rcases ih h with ⟨a', ha', b', hb', hx⟩
            exact ⟨a', by simp [ha'], b', by simp [hb'], hx⟩

theorem zipWith_xor_cancel :
    ∀ (p ks : List Nat), p.length ≤ ks.length →
      List.zipWith (fun a b => a ^^^ b)
        (List.zipWith (fun a b => a ^^^ b) p ks) ks = p
  | [], _, _ => by simp
  | a :: p, [], h => by simp at h
  | a :: p, k :: ks, h => by
      simp only [List.zipWith_cons_cons]
      rw [Nat.xor_assoc, Nat.xor_self, Nat.xor_zero,
        zipWith_xor_cancel p ks (by simpa using h)]

theorem ctrBlocks_flatten_length (E : BlockCipher) (key : List Nat)
    (hE : ∀ k b, (E k b).length = 16) :
    ∀ (n : Nat) (cb : List Nat), ((ctrBlocks E key cb n).flatten).length = 16 * n
  | 0, _ => by simp [ctrBlocks]
  | n + 1, cb => by
      simp only [ctrBlocks, List.flatten_cons, List.length_append, hE,
        ctrBlocks_flatten_length E key hE n (inc32 cb)]
      ring

theorem mem_ctrBlocks {E : BlockCipher} {key : List Nat} :
    ∀ {n : Nat} {cb b : List Nat}, b ∈ ctrBlocks E key cb n → ∃ cb', b = E key cb'
  | 0, cb, b, h => by simp [ctrBlocks] at h
  | n + 1, cb, b, h => by
      simp only [ctrBlocks, List.mem_cons] at h
      rcases h with h | h
      · exact ⟨cb, h⟩
      · exact mem_ctrBlocks h

theorem gctr_length (E : BlockCipher) (key icb input : List Nat)
    (hE : ∀ k b, (E k b).length = 16) :
    (gctr E key icb input).length = input.length := by
  rw [gctr, List.length_zipWith, ctrBlocks_flatten_length E key hE]
  omega

theorem gctr_gctr (E : BlockCipher) (key icb pt : List Nat)
    (hE : ∀ k b, (E k b).length = 16) :
    gctr E key icb (gctr E key icb pt) = pt := by
  have hlen := gctr_length E key icb pt hE
  nth_rewrite 1 [gctr]
  rw [hlen, gctr]
  exact zipWith_xor_cancel pt _ (by
    rw [ctrBlocks_flatten_length E key hE]; omega)

theorem gctr_bytes_lt (E : BlockCipher) (key icb input : List Nat)
    (hEb : ∀ k b x, x ∈ E k b → x < 256)
    (hin : ∀ b ∈ input, b < 256) :
    ∀ x ∈ gctr E key icb input, x < 256 := by
  intro x hx
  rcases mem_zipWith_xor hx with ⟨a, ha, b, hb, hxab⟩
  rcases List.mem_flatten.mp hb with ⟨blk, hblk, hbblk⟩
  rcases mem_ctrBlocks hblk with ⟨cb', rfl⟩
  have h1 : a < 2 ^ 8 := hin a ha
  have h2 : b < 2 ^ 8 := hEb key cb' b hbblk
  calc x = a ^^^ b := hxab
    _ < 2 ^ 8 := Nat.xor_lt_two_pow h1 h2

theorem bytesOfNatBE_bytes_lt (width n : Nat) : ∀ x ∈ bytesOfNatBE width n, x < 256 := by
  intro x hx
  simp only [bytesOfNatBE, List.mem_map] at hx
  rcases hx with ⟨i, _, rfl⟩
  exact Nat.mod_lt _ (by norm_num)

theorem gcmTag_length (E : BlockCipher) (key nonce C : List Nat)
    (hE : ∀ k b, (E k b).length = 16) :
    (gcmTag E key nonce C).length = 16 := by
  rw [gcmTag, List.length_zipWith, hE]
  simp [bytesOfNatBE]

theorem gcmTag_bytes_lt (E : BlockCipher) (key nonce C : List Nat)
    (hEb : ∀ k b x, x ∈ E k b → x < 256) :
    ∀ x ∈ gcmTag E key nonce C, x < 256 := by
  intro x hx
  rcases mem_zipWith_xor hx with ⟨a, ha, b, hb, rfl⟩
  exact Nat.xor_lt_two_pow (show a < 2 ^ 8 from hEb _ _ a ha)
    (show b < 2 ^ 8 from bytesOfNatBE_bytes_lt 16 _ b hb)

theorem gcmOpen_gcmSeal (E : BlockCipher) (key nonce pt : List Nat)
    (hE : ∀ k b, (E k b).length = 16) :
    gcmOpen E key nonce (gcmSeal E key nonce pt) = some pt := by
  rw [gcmSeal, gcmOpen]
  have hTlen : (gcmTag E key nonce
      (gctr E key (inc32 (nonce ++ [0, 0, 0, 1])) pt)).length = 16 :=
    gcmTag_length E key nonce _ hE
  have hClen' : (gctr E key (inc32 (nonce ++ [0, 0, 0, 1])) pt).length = pt.length :=
    gctr_length E key _ pt hE
  have hlen : (gctr E key (inc32 (nonce ++ [0, 0, 0, 1])) pt ++
      gcmTag E key nonce (gctr E key (inc32 (nonce ++ [0, 0, 0, 1])) pt)).length
      = pt.length + 16 := by
    rw [List.length_append, hClen', hTlen]
  rw [if_neg (by omega)]
  have hsub : (gctr E key (inc32 (nonce ++ [0, 0, 0, 1])) pt ++
      gcmTag E key nonce (gctr E key (inc32 (nonce ++ [0, 0, 0, 1])) pt)).length - 16
      = (gctr E key (inc32 (nonce ++ [0, 0, 0, 1])) pt).length := by omega
  rw [hsub, List.take_left, List.drop_left, if_pos rfl,
    gctr_gctr E key _ pt hE]

/-- C3: for every plaintext `P` and 32-byte session key `SS` (and any AES
block-cipher instantiation and fresh 12-byte nonce),
`open(SS, seal(SS, P)) = P`: `Session.Decrypt` inverts `Session.Encrypt`,
where `Encrypt` produces `base64(nonce(12) ‖ GCM ciphertext)` and `Decrypt`
splits the first 12 bytes off as the nonce. -/
theorem c3_seal_open_roundtrip (E : BlockCipher) (ss nonce pt : List Nat)
    (hE : ∀ k b, (E k b).length = 16)
    (hEb : ∀ k b x, x ∈ E k b → x < 256)
    (hss : ss.length = 32)
    (hnonce : nonce.length = 12)
    (hnb : ∀ b ∈ nonce, b < 256)
    (hpt : ∀ b ∈ pt, b < 256) :
    FromSharedSecret ss = some ss ∧
    Session.Decrypt E ss (Session.Encrypt E ss nonce pt) = some pt := by
  constructor
  · rw [FromSharedSecret, if_pos hss]
  rw [Session.Encrypt, Session.Decrypt]
  have hbytes : ∀ b ∈ nonce ++ gcmSeal E ss nonce pt, b < 256 := by
    intro b hb
    rcases List.mem_append.mp hb with hb | hb
    · exact hnb b hb
    · rw [gcmSeal] at hb
      rcases List.mem_append.mp hb with hb | hb
      · exact gctr_bytes_lt E ss _ pt hEb hpt b hb
      · exact gcmTag_bytes_lt E ss nonce _ hEb b hb
  rw [show (String.mk (b64encode (nonce ++ gcmSeal E ss nonce pt))).data
        = b64encode (nonce ++ gcmSeal E ss nonce pt) from rfl,
    b64decode_b64encode _ hbytes, Option.some_bind]
  have hlen : (nonce ++ gcmSeal E ss nonce pt).length = 12 + (gcmSeal E ss nonce pt).length := by
    rw [List.length_append, hnonce]
  rw [if_neg (by omega), show (12 : Nat) = nonce.length from hnonce.symm,
    List.take_left, List.drop_left]
  exact gcmOpen_gcmSeal E ss nonce pt hE

/-- Concrete block cipher used to instantiate the round-trip at a point. -/
def constCipher : BlockCipher := fun _ _ => List.replicate 16 0

/-- Witness for C3 at a concrete key, nonce and plaintext. -/
theorem c3_seal_open_roundtrip_witness :
    (List.replicate 32 0 : List Nat).length = 32 ∧
    (List.replicate 12 0 : List Nat).length = 12 ∧
    Session.Decrypt constCipher (List.replicate 32 0)
      (Session.Encrypt constCipher (List.replicate 32 0) (List.replicate 12 0)
        [104, 105]) = some [104, 105] :=
  ⟨by decide, by decide,
    (c3_seal_open_roundtrip constCipher (List.replicate 32 0) (List.replicate 12 0)
      [104, 105]
      (fun _ _ => rfl)
      (fun _ _ x hx => by
        have := List.eq_of_mem_replicate hx; omega)
      (by decide) (by decide)
      (fun b hb => by have := List.eq_of_mem_replicate hb; omega)
      (by decide)).2⟩

/-! ## `encryption.DeriveSharedSecret` (src/unnamed/part_002, lines 161-191)

`curve25519.X25519` and SHA-256 are external primitives, passed as the
parameters `X` and `h`.  The HKDF construction of `golang.org/x/crypto/hkdf`
(HMAC-based extract-and-expand; `salt = nil` means a hash-length zero salt)
is spelled out so that the derived key's shape is proved, not assumed. -/

/-- HMAC over an abstract hash with a 64-byte block (as for SHA-256). -/
def hmac (h : List Nat → List Nat) (key msg : List Nat) : List Nat :=
  let key1 := if 64 < key.length then h key else key
  let key0 := key1 ++ List.replicate (64 - key1.length) 0
  h ((key0.map (fun b => b ^^^ 0x5c)) ++ h ((key0.map (fun b => b ^^^ 0x36)) ++ msg))

/-- HKDF (extract + first expand block), reading 32 bytes, with a nil salt
as in `hkdf.New(sha256.New, secret, nil, info)`. -/
def hkdf32 (h : List Nat → List Nat) (secret info : List Nat) : List Nat :=
  let prk := hmac h (List.replicate 32 0) secret
  (hmac h prk (info ++ [1])).take 32

/-- The fixed HKDF info string `"root-camera-encryption"` as bytes. -/
def encryptionInfo : List Nat := "root-camera-encryption".data.map Char.toNat

/-- `encryption.DeriveSharedSecret`: length gate, X25519 product, all-zero
(weak key) check, HKDF-SHA256 with empty salt and the fixed info string. -/
def DeriveSharedSecret (X : List Nat → List Nat → List Nat)
    (h : List Nat → List Nat) (yourPrivateKey theirPublicKey : List Nat) :
    Except String (List Nat) :=
  if yourPrivateKey.length ≠ 32 ∨ theirPublicKey.length ≠ 32 then
    .error "keys must be 32 bytes"
  else
    let secret := X yourPrivateKey theirPublicKey
    if secret.all (· = 0) then .error "weak shared secret detected"
    else .ok (hkdf32 h secret encryptionInfo)

/-- C4: `DeriveSharedSecret` errors when either key is not exactly 32 bytes;
for 32-byte inputs with an all-zero X25519 product it fails as the weak-key
error; otherwise it returns the 32-byte HKDF-SHA256 derivation (empty salt,
info `"root-camera-encryption"`) of the X25519 product. -/
theorem c4_derive_shared_secret (X : List Nat → List Nat → List Nat)
    (h : List Nat → List Nat) (hh : ∀ x, (h x).length = 32)
    (privBad pubBad privW pubW privG pubG : List Nat)
    (hbad : privBad.length ≠ 32 ∨ pubBad.length ≠ 32)
    (hWp : privW.length = 32) (hWq : pubW.length = 32)
    (hzero : (X privW pubW).all (· = 0) = true)
    (hGp : privG.length = 32) (hGq : pubG.length = 32)
    (hnz : (X privG pubG).all (· = 0) = false) :
    DeriveSharedSecret X h privBad pubBad = .error "keys must be 32 bytes" ∧
    DeriveSharedSecret X h privW pubW = .error "weak shared secret detected" ∧
    DeriveSharedSecret X h privG pubG =
      .ok (hkdf32 h (X privG pubG) encryptionInfo) ∧
    (hkdf32 h (X privG pubG) encryptionInfo).length = 32 := by
  refine ⟨?_, ?_, ?_, ?_⟩
  · rw [DeriveSharedSecret, if_pos hbad]
  · rw [DeriveSharedSecret, if_neg (by omega)]
    simp only [hzero, if_true]
  · rw [DeriveSharedSecret, if_neg (by omega)]
    simp only [hnz, Bool.false_eq_true, if_false]
  · rw [hkdf32]
    simp only [List.length_take, hmac, hh]
    omega

/-- Concrete X function for the witness: all-zero product for the all-zero
private key, a non-zero product otherwise. -/
def xWitness : List Nat → List Nat → List Nat := fun p _ =>
  if p = List.replicate 32 1 then List.replicate 32 7 else List.replicate 32 0

/-- Concrete stand-in hash (32-byte output) for the witness. -/
def hashWitness : List Nat → List Nat := fun _ => List.range 32

/-- Witness for C4 at concrete keys. -/
theorem c4_derive_shared_secret_witness :
    DeriveSharedSecret xWitness hashWitness [1, 2, 3] (List.replicate 32 0) =
      .error "keys must be 32 bytes" ∧
    DeriveSharedSecret xWitness hashWitness (List.replicate 32 0)
      (List.replicate 32 0) = .error "weak shared secret detected" ∧
    DeriveSharedSecret xWitness hashWitness (List.replicate 32 1)
      (List.replicate 32 0) =
      .ok (hkdf32 hashWitness (xWitness (List.replicate 32 1) (List.replicate 32 0))
        encryptionInfo) ∧
    (hkdf32 hashWitness (xWitness (List.replicate 32 1) (List.replicate 32 0))
      encryptionInfo).length = 32 :=
  c4_derive_shared_secret xWitness hashWitness
    (fun x => by simp [hashWitness])
    [1, 2, 3] (List.replicate 32 0) (List.replicate 32 0) (List.replicate 32 0)
    (List.replicate 32 1) (List.replicate 32 0)
    (by decide) (by decide) (by decide) (by decide) (by decide) (by decide)
    (by decide)

/-! ## `ups` package (src/unnamed/part_002, package `ups`)

`Init` leaves the singleton `nil` when no INA219 responds on the I2C bus;
every method starts with a `nil`-receiver check.  A device is modelled by the
two bytes each register read returns; Go `float64` arithmetic is modelled
over `ℚ`, which the claim is insensitive to because the result is clamped to
`[0, 100]` with integer comparisons. -/

/-- The bytes an INA219 register read returns, per register address. -/
structure UPSDev where
  read : Nat → Fin 256 × Fin 256

/-- `ups` register addresses and constants. -/
def regBusVoltage : Nat := 2

def regCurrent : Nat := 4

def lowPowerLevel : Int := 10

/-- Truncation toward zero, as in Go's float-to-int conversion. -/
def ratTrunc (q : ℚ) : Int := if 0 ≤ q then ⌊q⌋ else -⌊-q⌋

/-- `UPS.readRegister`: big-endian 16-bit read, two's-complement sign fix. -/
def readRegister (d : UPSDev) (reg : Nat) : Int :=
  let value : Int := (d.read reg).1.val * 256 + (d.read reg).2.val
  if value > 32767 then value - 65536 else value

/-- `UPS.GetBatteryPercent`: 100 for a `nil` UPS; otherwise voltage-derived
percentage clamped to `[0, 100]`. -/
def GetBatteryPercent (u : Option UPSDev) : Int :=
  match u with
  | none => 100
  | some d =>
      let value := readRegister d regBusVoltage
      let voltage : ℚ := ((Int.fdiv value 8 : Int) : ℚ) * (4 / 1000)
      let percent : Int := ratTrunc ((voltage - 3) / (12 / 10) * 100)
      if percent > 100 then 100 else if percent < 0 then 0 else percent

/-- `UPS.OnACPower`: `true` for a `nil` UPS; otherwise whether the signed
current reading is non-negative. -/
def OnACPower (u : Option UPSDev) : Bool :=
  match u with
  | none => true
  | some d =>
      decide ((0 : ℚ) ≤ (readRegister d regCurrent : ℚ) * (1524 / 10000))

/-- `UPS.IsLowPower`: `false` for a `nil` UPS; otherwise battery at or below
10% while discharging. -/
def IsLowPower (u : Option UPSDev) : Bool :=
  match u with
  | none => false
  | some d => decide (GetBatteryPercent (some d) ≤ lowPowerLevel) && !OnACPower (some d)

/-- C10: with no UPS detected (`nil` handle) the operations return benign
defaults — battery 100, on AC power, not low power — and for every possible
register reading the battery percentage lies in `[0, 100]`. -/
theorem c10_ups_defaults_and_range :
    GetBatteryPercent none = 100 ∧ OnACPower none = true ∧ IsLowPower none = false ∧
    ∀ d : UPSDev, 0 ≤ GetBatteryPercent (some d) ∧ GetBatteryPercent (some d) ≤ 100 := by
  refine ⟨rfl, rfl, rfl, fun d => ?_⟩
  simp only [GetBatteryPercent]
  split_ifs <;> omega

/-! ## `config` package (src/pkg/config/config.go)

The store is a string-keyed map of JSON values; the values this firmware
actually stores are strings, booleans, byte slices and the device list, so
the model uses a sum type over those.  `save` rewrites the whole map to the
config file as indented JSON with mode `0644`
(`os.WriteFile(configPath, data, 0644)`). -/

/-- A paired-device record (src/unnamed/part_008 `Device`); times are seconds. -/
structure DeviceRec where
  id : String
  name : String
  publicKey : List Nat
  cameraPrivateKey : List Nat
  connectedAt : Nat
  lastKeyRotation : Nat
  deriving DecidableEq, Inhabited

/-- A JSON value as stored in the config map. -/
inductive CVal
  | s (v : String)
  | b (v : Bool)
  | bytes (v : List Nat)
  | devs (v : List DeviceRec)
  deriving DecidableEq, Inhabited

/-- Association-list lookup for the config map. -/
def lookupConfig (m : List (String × CVal)) (k : String) : Option CVal :=
  (m.find? (fun p => p.1 = k)).map (·.2)

/-- Go map insert: replace the binding if the key exists, else append. -/
def insertConfig : List (String × CVal) → String → CVal → List (String × CVal)
  | [], k, v => [(k, v)]
  | (k', v') :: t, k, v =>
      if k' = k then (k, v) :: t else (k', v') :: insertConfig t k v

/-- Go map delete. -/
def eraseConfig (m : List (String × CVal)) (k : String) : List (String × CVal) :=
  m.filter (fun p => p.1 ≠ k)

/-- Concatenate with a separator (for the JSON serializer). -/
def joinSep (sep : String) : List String → String
  | [] => ""
  | [x] => x
  | x :: t => x ++ sep ++ joinSep sep t

/-- JSON rendering of one device record (Go marshals `[]byte` as base64). -/
def jsonOfDevice (d : DeviceRec) : String :=
  "\x7b\"id\": \"" ++ d.id ++ "\", \"name\": \"" ++ d.name ++
  "\", \"publicKey\": \"" ++ String.mk (b64encode d.publicKey) ++
  "\", \"cameraPrivateKey\": \"" ++ String.mk (b64encode d.cameraPrivateKey) ++
  "\", \"connectedAt\": " ++ toString d.connectedAt ++
  ", \"lastKeyRotation\": " ++ toString d.lastKeyRotation ++ "\x7d"

/-- JSON rendering of a config value. -/
def jsonOfCVal : CVal → String
  | .s v => "\"" ++ v ++ "\""
  | .b true => "true"
  | .b false => "false"
  | .bytes v => "\"" ++ String.mk (b64encode v) ++ "\""
  | .devs l => "[" ++ joinSep ", " (l.map jsonOfDevice) ++ "]"

/-- The whole map as formatted (indented) JSON, as `json.MarshalIndent`
produces for `SetKey`'s `save`. -/
def serializeConfig (m : List (String × CVal)) : String :=
  "\x7b\n" ++
  joinSep ",\n" (m.map (fun p => "  \"" ++ p.1 ++ "\": " ++ jsonOfCVal p.2)) ++
  "\n\x7d"

/-- The on-disk config file: contents plus Unix permission bits. -/
structure FileState where
  contents : String
  mode : Nat
  deriving DecidableEq, Inhabited

/-- The file mode `Config.save` passes to `os.WriteFile`. -/
def configFileMode : Nat := 0o644

/-- The config store: in-memory map plus the persisted file. -/
structure Config where
  data : List (String × CVal)
  file : FileState
  deriving DecidableEq, Inhabited

/-- `Config.save`: marshal the whole map with indentation and write it. -/
def Config.save (c : Config) : Config :=
  { c with file := ⟨serializeConfig c.data, configFileMode⟩ }

/-- `Config.SetKey`: `nil` deletes the key, any other value is stored;
either way the map is persisted before returning. -/
def Config.SetKey (c : Config) (key : String) (value : Option CVal) : Config :=
  Config.save { c with
    data := match value with
            | none => eraseConfig c.data key
            | some v => insertConfig c.data key v }

/-- `Config.GetKey`. -/
def Config.GetKey (c : Config) (key : String) : Option CVal :=
  lookupConfig c.data key

theorem lookupConfig_insertConfig_self (m : List (String × CVal)) (k : String) (v : CVal) :
    lookupConfig (insertConfig m k v) k = some v := by
  induction m with
  | nil => simp [insertConfig, lookupConfig, List.find?]
  | cons p t ih =>
      by_cases h : p.1 = k
      · simp [insertConfig, h, lookupConfig, List.find?]
      · simp only [insertConfig]
        rw [if_neg (by exact h)]
        simpa [lookupConfig, List.find?, h] using ih

theorem lookupConfig_insertConfig_ne (m : List (String × CVal)) (k k' : String) (v : CVal)
    (h : k' ≠ k) : lookupConfig (insertConfig m k v) k' = lookupConfig m k' := by
  induction m with
  | nil => simp [insertConfig, lookupConfig, List.find?, Ne.symm h]
  | cons p t ih =>
      by_cases hp : p.1 = k
      · have hpk' : p.1 ≠ k' := by rw [hp]; exact Ne.symm h
        simp only [insertConfig, if_pos hp]
        simp [lookupConfig, List.find?, Ne.symm h, hpk']
      · simp only [insertConfig]
        rw [if_neg (by exact hp)]
        by_cases hp' : p.1 = k'
        · simp [lookupConfig, List.find?, hp']
        · simpa [lookupConfig, List.find?, hp'] using ih

theorem lookupConfig_eraseConfig_self (m : List (String × CVal)) (k : String) :
    lookupConfig (eraseConfig m k) k = none := by
  induction m with
  | nil => simp [eraseConfig, lookupConfig]
  | cons p t ih =>
      by_cases h : p.1 = k
      · rw [eraseConfig, List.filter_cons, if_neg (by simp [h])]
        exact ih
      · rw [eraseConfig, List.filter_cons, if_pos (by simp [h])]
        rw [eraseConfig] at ih
        simp only [lookupConfig, List.find?] at ih ⊢
        simp [h, ih]

theorem GetKey_SetKey_self (c : Config) (k : String) (v : CVal) :
    Config.GetKey (Config.SetKey c k (some v)) k = some v := by
  simp only [Config.GetKey, Config.SetKey, Config.save]
  exact lookupConfig_insertConfig_self c.data k v

theorem GetKey_SetKey_none (c : Config) (k : String) :
    Config.GetKey (Config.SetKey c k none) k = none := by
  simp only [Config.GetKey, Config.SetKey, Config.save]
  exact lookupConfig_eraseConfig_self c.data k

theorem GetKey_SetKey_ne (c : Config) (k k' : String) (v : CVal) (h : k' ≠ k) :
    Config.GetKey (Config.SetKey c k (some v)) k' = Config.GetKey c k' := by
  simp only [Config.GetKey, Config.SetKey, Config.save]
  exact lookupConfig_insertConfig_ne c.data k k' v h

/-- C9 (amended): every `SetKey` deletes the key when the value is nil and
stores it otherwise, and in both cases persists the whole map to the config
file (as formatted JSON) before returning — but with file mode `0644`
(group- and world-readable), not a mode restricted to the owning user. -/
theorem c9_setkey_persists (c : Config) (k : String) (v : CVal) :
    Config.GetKey (Config.SetKey c k none) k = none ∧
    Config.GetKey (Config.SetKey c k (some v)) k = some v ∧
    (Config.SetKey c k none).file =
      ⟨serializeConfig (Config.SetKey c k none).data, configFileMode⟩ ∧
    (Config.SetKey c k (some v)).file =
      ⟨serializeConfig (Config.SetKey c k (some v)).data, configFileMode⟩ ∧
    configFileMode = 0o644 :=
  ⟨GetKey_SetKey_none c k, GetKey_SetKey_self c k v, rfl, rfl, rfl⟩

/-- C9 counterexample: the claim says the file permissions restrict access
to the owning user, but `save` writes with mode `0644`, whose group/other
bits (`0o077` mask) are not zero — the file is readable by group and world. -/
theorem c9_counterexample :
    (Config.SetKey ⟨[], ⟨"", 0⟩⟩ "a" (some (.b true))).file.mode = 0o644 ∧
    (Config.SetKey ⟨[], ⟨"", 0⟩⟩ "a" (some (.b true))).file.mode &&& 0o077 ≠ 0 := by
  refine ⟨rfl, ?_⟩
  decide

/-! ## `devices` package (src/unnamed/part_008)

The registry's single source of truth is the config entry
`connectedDevices`; `getDevices` reads it (the Go code re-marshals the stored
value and unmarshals it into `[]Device`, the identity on lists that `Add`
itself stored), `Add` filters out any record with the same ID and appends the
new record, `Remove` filters.  The kick-timer map is irrelevant to the
registry-uniqueness claim and is not modelled here. -/

/-- `Devices.getDevices`: read `connectedDevices`, empty if absent. -/
def getDevices (c : Config) : List DeviceRec :=
  match Config.GetKey c "connectedDevices" with
  | some (.devs l) => l
  | _ => []

/-- `Devices.Add`: drop any record with the same ID, append the new record,
persist via `SetKey`. -/
def Devices.Add (c : Config) (id name : String)
    (publicKey cameraPrivateKey : List Nat) (now : Nat) : Config :=
  Config.SetKey c "connectedDevices"
    (some (.devs ((getDevices c).filter (fun dev => dev.id ≠ id) ++
      [⟨id, name, publicKey, cameraPrivateKey, now, now⟩])))

/-- `Devices.Remove`: drop the record with the given ID, persist. -/
def Devices.Remove (c : Config) (deviceID : String) : Config :=
  Config.SetKey c "connectedDevices"
    (some (.devs ((getDevices c).filter (fun dev => dev.id ≠ deviceID))))

/-- One registry operation. -/
inductive DevOp
  | add (id name : String) (pk camPriv : List Nat) (now : Nat)
  | remove (id : String)

/-- Apply one registry operation. -/
def applyDevOp (c : Config) : DevOp → Config
  | .add id name pk camPriv now => Devices.Add c id name pk camPriv now
  | .remove id => Devices.Remove c id

/-- Run a sequence of registry operations. -/
def runDevOps (c : Config) (ops : List DevOp) : Config := ops.foldl applyDevOp c

theorem getDevices_Add (c : Config) (id name : String) (pk cp : List Nat) (now : Nat) :
    getDevices (Devices.Add c id name pk cp now) =
      (getDevices c).filter (fun dev => dev.id ≠ id) ++
      [⟨id, name, pk, cp, now, now⟩] := by
  rw [getDevices, Devices.Add, GetKey_SetKey_self]

theorem getDevices_Remove (c : Config) (id : String) :
    getDevices (Devices.Remove c id) =
      (getDevices c).filter (fun dev => dev.id ≠ id) := by
  rw [getDevices, Devices.Remove, GetKey_SetKey_self]

theorem nodup_filter_append_ids (l : List DeviceRec) (id : String) (d : DeviceRec)
    (hd : d.id = id) (h : (l.map (·.id)).Nodup) :
    (((l.filter (fun dev => dev.id ≠ id)) ++ [d]).map (·.id)).Nodup := by
  rw [List.map_append]
  apply List.Nodup.append
  · exact h.sublist ((List.filter_sublist l).map (·.id))
  · simp
  · intro x hx hy
    simp only [List.map_cons, List.map_nil, List.mem_singleton] at hy
    subst hy
    rcases List.mem_map.mp hx with ⟨dev, hdev, hid⟩
    have := (List.mem_filter.mp hdev).2
    simp only [decide_eq_true_eq] at this
    exact this (by rw [hid, hd])

theorem nodup_runDevOps (ops : List DevOp) (c : Config)
    (h : ((getDevices c).map (·.id)).Nodup) :
    ((getDevices (runDevOps c ops)).map (·.id)).Nodup := by
  induction ops generalizing c with
  | nil => exact h
  | cons op t ih =>
      rw [runDevOps, List.foldl_cons]
      apply ih
      cases op with
      | add id name pk cp now =>
          rw [applyDevOp, getDevices_Add]
          exact nodup_filter_append_ids _ id _ rfl h
      | remove id =>
          rw [applyDevOp, getDevices_Remove]
          exact h.sublist (List.Sublist.map (fun d : DeviceRec => d.id)
            (List.filter_sublist (getDevices c)))

theorem filter_ne_of_not_mem_ids (l : List DeviceRec) (id : String)
    (h : id ∉ l.map (·.id)) :
    l.filter (fun dev => dev.id ≠ id) = l := by
  induction l with
  | nil => rfl
  | cons d t ih =>
      simp only [List.map_cons, List.mem_cons, not_or] at h
      rw [List.filter_cons, if_pos (by simpa using Ne.symm h.1), ih h.2]

/-- C8 (amended): from an empty registry, after any sequence of `Add` and
`Remove` operations the device IDs are unique; adding an ID already present
removes the previous record and appends the updated record at the end of the
list (so no two records ever share an ID), and adding a new ID appends it. -/
theorem c8_registry_unique_ids (c0 : Config) (ops : List DevOp)
    (h0 : getDevices c0 = [])
    (idOld idNew name : String) (pk cp : List Nat) (now : Nat)
    (hfresh : idNew ∉ (getDevices (runDevOps c0 ops)).map (·.id)) :
    ((getDevices (runDevOps c0 ops)).map (·.id)).Nodup ∧
    getDevices (Devices.Add (runDevOps c0 ops) idOld name pk cp now) =
      (getDevices (runDevOps c0 ops)).filter (fun dev => dev.id ≠ idOld) ++
      [⟨idOld, name, pk, cp, now, now⟩] ∧
    getDevices (Devices.Add (runDevOps c0 ops) idNew name pk cp now) =
      getDevices (runDevOps c0 ops) ++ [⟨idNew, name, pk, cp, now, now⟩] := by
  refine ⟨nodup_runDevOps ops c0 (by rw [h0]; exact List.nodup_nil), getDevices_Add _ _ _ _ _ _, ?_⟩
  rw [getDevices_Add, filter_ne_of_not_mem_ids _ _ hfresh]

/-- Witness for C8: two adds then checks on a concrete registry. -/
theorem c8_registry_unique_ids_witness :
    ((getDevices (runDevOps ⟨[], ⟨"", 0⟩⟩
        [.add "a" "A" [] [] 0, .add "b" "B" [] [] 0])).map (·.id)).Nodup ∧
    getDevices (Devices.Add (runDevOps ⟨[], ⟨"", 0⟩⟩
        [.add "a" "A" [] [] 0, .add "b" "B" [] [] 0]) "a" "N" [] [] 1) =
      (getDevices (runDevOps ⟨[], ⟨"", 0⟩⟩
        [.add "a" "A" [] [] 0, .add "b" "B" [] [] 0])).filter
          (fun dev => dev.id ≠ "a") ++ [⟨"a", "N", [], [], 1, 1⟩] ∧
    getDevices (Devices.Add (runDevOps ⟨[], ⟨"", 0⟩⟩
        [.add "a" "A" [] [] 0, .add "b" "B" [] [] 0]) "c" "N" [] [] 1) =
      getDevices (runDevOps ⟨[], ⟨"", 0⟩⟩
        [.add "a" "A" [] [] 0, .add "b" "B" [] [] 0]) ++ [⟨"c", "N", [], [], 1, 1⟩] :=
  c8_registry_unique_ids ⟨[], ⟨"", 0⟩⟩
    [.add "a" "A" [] [] 0, .add "b" "B" [] [] 0] (by decide)
    "a" "c" "N" [] [] 1 (by decide)

/-- C8 counterexample: the claim says an `Add` with an existing ID replaces
the previous record *in place*; in fact the updated record is appended at the
end.  After adding `a` then `b`, re-adding `a` yields `[b, a']`, not the
in-place `[a', b]`. -/
theorem c8_counterexample :
    getDevices (Devices.Add (runDevOps ⟨[], ⟨"", 0⟩⟩
        [.add "a" "A" [] [] 0, .add "b" "B" [] [] 0]) "a" "A2" [] [] 1) =
      [⟨"b", "B", [], [], 0, 0⟩, ⟨"a", "A2", [], [], 1, 1⟩] ∧
    getDevices (Devices.Add (runDevOps ⟨[], ⟨"", 0⟩⟩
        [.add "a" "A" [] [] 0, .add "b" "B" [] [] 0]) "a" "A2" [] [] 1) ≠
      (getDevices (runDevOps ⟨[], ⟨"", 0⟩⟩
        [.add "a" "A" [] [] 0, .add "b" "B" [] [] 0])).map
          (fun d => if d.id = "a" then ⟨"a", "A2", [], [], 1, 1⟩ else d) := by
  refine ⟨by decide, by decide⟩

/-! ## `pairing` package helper (src/pkg/pairing/helper.go, third revision:
`GetCode` lines 276-290, `PairDevice` lines 293-338)

Time is seconds (`codeExpiry = 5 minutes = 300`); the CSPRNG outputs feeding
`randomInt` and `GenerateKeypair` are explicit parameters, as are the WiFi
collaborator results that `PairDevice` gathers best-effort. -/

/-- An active pairing code with its absolute expiry. -/
structure PairingCodeR where
  code : String
  expiresAt : Nat
  deriving DecidableEq, Inhabited

/-- The pairing helper's state: the optional active code plus the config
store it reads and writes. -/
structure PairingState where
  code : Option PairingCodeR
  config : Config
  deriving DecidableEq, Inhabited

/-- `codeExpiry = 5 * time.Minute`, in seconds. -/
def codeExpiry : Nat := 300

/-- `pairing.randomInt`: four CSPRNG bytes little-endian into a 64-bit int
(always non-negative, so the `n < 0` branch is dead), then shifted into
`[lo, hi]`. -/
def randomInt (lo hi : Int) (r0 r1 r2 r3 : Fin 256) : Int :=
  let n : Int := r0.val + r1.val * 256 + r2.val * 65536 + r3.val * 16777216
  let n' := if n < 0 then -n else n
  lo + n' % (hi - lo + 1)

/-- Go `fmt.Sprintf("%06d", n)` for `n ∈ [0, 999999]`. -/
def format06 (n : Int) : String :=
  let s := toString n.toNat
  String.mk (List.replicate (6 - s.length) '0' ++ s.data)

/-- `Pairing.GetCode`: return the current code, generating a fresh 6-digit
code with a 5-minute TTL when none is set or the current one has expired. -/
def GetCode (s : PairingState) (now : Nat) (r0 r1 r2 r3 : Fin 256) :
    String × PairingState :=
  match s.code with
  | none =>
      let code := format06 (randomInt 0 999999 r0 r1 r2 r3)
      (code, { s with code := some ⟨code, now + codeExpiry⟩ })
  | some c =>
      if now > c.expiresAt then
        let code := format06 (randomInt 0 999999 r0 r1 r2 r3)
        (code, { s with code := some ⟨code, now + codeExpiry⟩ })
      else (c.code, s)

/-- An X25519 keypair (`encryption.Keypair`). -/
structure Keypair where
  publicKey : List Nat
  privateKey : List Nat

/-- The Curve25519 base point as bytes. -/
def basepoint : List Nat := 9 :: List.replicate 31 0

/-- `encryption.GenerateKeypair`: 32 CSPRNG bytes as the private scalar (a
parameter here), public key via the X function at the base point. -/
def generateKeypair (X : List Nat → List Nat → List Nat)
    (privRand : List Nat) : Keypair :=
  ⟨X privRand basepoint, privRand⟩

/-- The bytes of a config value (Go's `.([]byte)` type assertion; a non-bytes
value would panic in Go and is unreachable for keys this code writes). -/
def cvalBytes : CVal → List Nat
  | .bytes b => b
  | _ => []

/-- Modelled from the spec: registry `add(id, name, public_key)` — the
three-argument revision of `devices.Add` that this `PairDevice` revision
calls is absent from src/ (only the four-argument revision,
src/unnamed/part_008, is present).  Per spec §4.C the operation replaces any
record with the same ID or appends, then re-persists the list; modelled by
the four-argument `Devices.Add` with an empty per-device camera key. -/
def addDevice3 (c : Config) (id name : String) (pk : List Nat) (now : Nat) : Config :=
  Devices.Add c id name pk [] now

/-- What `PairDevice` returns on success. -/
structure PairResult where
  cameraPublicKey : String
  wifiConnected : Bool
  relayUrl : Option CVal
  availableNetworks : List String
  deriving DecidableEq, Inhabited

/-- The code check of `PairDevice`:
`b.code == nil || b.code.Code != code || time.Now().After(b.code.ExpiresAt)`. -/
def codeInvalid (oc : Option PairingCodeR) (code : String) (now : Nat) : Bool :=
  match oc with
  | none => true
  | some c => c.code != code || decide (now > c.expiresAt)

/-- `Pairing.PairDevice` (single camera keypair revision): verify the code,
lazily create and persist the camera keypair, register the device, invalidate
the code, reply with the base64 camera public key and best-effort
collaborator data. -/
def PairDevice (X : List Nat → List Nat → List Nat) (privRand : List Nat)
    (now : Nat) (deviceID deviceName code : String) (devicePublicKey : List Nat)
    (wifiConnected : Bool) (networks : List String) (s : PairingState) :
    Except String PairResult × PairingState :=
  if codeInvalid s.code code now then (.error "invalid or expired code", s)
  else
        let pk := generateKeypair X privRand
        let (cameraPub, cfg1) :=
          match Config.GetKey s.config "cameraPublicKey" with
          | none =>
              let cfgA := Config.SetKey s.config "cameraPrivateKey"
                (some (.bytes pk.privateKey))
              let cfgB := Config.SetKey cfgA "cameraPublicKey"
                (some (.bytes pk.publicKey))
              (pk.publicKey, cfgB)
          | some v => (cvalBytes v, s.config)
        let cfg2 := addDevice3 cfg1 deviceID deviceName devicePublicKey now
        (.ok ⟨String.mk (b64encode cameraPub), wifiConnected,
               Config.GetKey cfg2 "relayUrl", networks⟩,
         ⟨none, cfg2⟩)

theorem GetKey_addDevice3_ne (c : Config) (id name : String) (pk : List Nat)
    (now : Nat) (k : String) (h : k ≠ "connectedDevices") :
    Config.GetKey (addDevice3 c id name pk now) k = Config.GetKey c k :=
  GetKey_SetKey_ne _ _ _ _ h

/-- C5: a pair call that succeeds while no camera keypair is stored generates
a fresh keypair, persists the private part under `cameraPrivateKey` and the
public part under `cameraPublicKey`, and returns that public part (base64)
as `cameraPublicKey`; a later successful pair on the resulting config reuses
the stored keypair without overwriting it and returns the same public part. -/
theorem c5_pair_persists_camera_keypair
    (X : List Nat → List Nat → List Nat) (privRand : List Nat) (now : Nat)
    (id name code : String) (pk : List Nat) (w : Bool) (nets : List String)
    (s : PairingState) (c : PairingCodeR)
    (hcode : s.code = some c) (hmatch : c.code = code) (hexp : ¬ now > c.expiresAt)
    (hnokey : Config.GetKey s.config "cameraPublicKey" = none)
    (res1 : PairResult) (s1 : PairingState)
    (hrun : PairDevice X privRand now id name code pk w nets s = (.ok res1, s1))
    (s' : PairingState) (c2 : PairingCodeR) (hconf : s'.config = s1.config)
    (now2 : Nat) (id2 name2 code2 : String) (pk2 priv2 : List Nat)
    (w2 : Bool) (nets2 : List String)
    (hcode2 : s'.code = some c2) (hmatch2 : c2.code = code2)
    (hexp2 : ¬ now2 > c2.expiresAt)
    (res2 : PairResult) (s2 : PairingState)
    (hrun2 : PairDevice X priv2 now2 id2 name2 code2 pk2 w2 nets2 s' = (.ok res2, s2)) :
    Config.GetKey s1.config "cameraPrivateKey" = some (.bytes privRand) ∧
    Config.GetKey s1.config "cameraPublicKey" = some (.bytes (X privRand basepoint)) ∧
    res1.cameraPublicKey = String.mk (b64encode (X privRand basepoint)) ∧
    Config.GetKey s2.config "cameraPrivateKey" = some (.bytes privRand) ∧
    Config.GetKey s2.config "cameraPublicKey" = some (.bytes (X privRand basepoint)) ∧
    res2.cameraPublicKey = String.mk (b64encode (X privRand basepoint)) := by
  have hinv : codeInvalid s.code code now = false := by
    rw [hcode]; simp [codeInvalid, hmatch, hexp]
  rw [PairDevice] at hrun
  simp only [hinv, Bool.false_eq_true, if_false, hnokey] at hrun
  have hres1 : res1 = ⟨String.mk (b64encode (generateKeypair X privRand).publicKey), w,
      Config.GetKey (addDevice3
        (Config.SetKey (Config.SetKey s.config "cameraPrivateKey"
          (some (.bytes (generateKeypair X privRand).privateKey)))
          "cameraPublicKey" (some (.bytes (generateKeypair X privRand).publicKey)))
        id name pk now) "relayUrl", nets⟩ := by
    have := congrArg Prod.fst hrun
    simpa using this.symm
  have hs1 : s1 = ⟨none,
      addDevice3
        (Config.SetKey (Config.SetKey s.config "cameraPrivateKey"
          (some (.bytes (generateKeypair X privRand).privateKey)))
          "cameraPublicKey" (some (.bytes (generateKeypair X privRand).publicKey)))
        id name pk now⟩ := by
    have := congrArg Prod.snd hrun
    simpa using this.symm
  have hpriv1 : Config.GetKey s1.config "cameraPrivateKey" = some (.bytes privRand) := by
    rw [hs1]
    rw [GetKey_addDevice3_ne _ _ _ _ _ _ (by decide),
      GetKey_SetKey_ne _ _ _ _ (by decide), GetKey_SetKey_self]
    rfl
  have hpub1 : Config.GetKey s1.config "cameraPublicKey" =
      some (.bytes (X privRand basepoint)) := by
    rw [hs1]
    rw [GetKey_addDevice3_ne _ _ _ _ _ _ (by decide), GetKey_SetKey_self]
    rfl
  refine ⟨hpriv1, hpub1, by rw [hres1]; rfl, ?_, ?_, ?_⟩
  all_goals
    have hinv2 : codeInvalid s'.code code2 now2 = false := by
      rw [hcode2]; simp [codeInvalid, hmatch2, hexp2]
    rw [PairDevice] at hrun2
    simp only [hinv2, Bool.false_eq_true, if_false, hconf, hpub1] at hrun2
  · have hs2 : s2 = ⟨none, addDevice3 s1.config id2 name2 pk2 now2⟩ := by
      have := congrArg Prod.snd hrun2
      simpa [cvalBytes] using this.symm
    rw [hs2, GetKey_addDevice3_ne _ _ _ _ _ _ (by decide)]
    exact hpriv1
  · have hs2 : s2 = ⟨none, addDevice3 s1.config id2 name2 pk2 now2⟩ := by
      have := congrArg Prod.snd hrun2
      simpa [cvalBytes] using this.symm
    rw [hs2, GetKey_addDevice3_ne _ _ _ _ _ _ (by decide)]
    exact hpub1
  · have hres2 : res2 = ⟨String.mk (b64encode
        (cvalBytes (.bytes (X privRand basepoint)))), w2,
        Config.GetKey (addDevice3 s1.config id2 name2 pk2 now2) "relayUrl", nets2⟩ := by
      have := congrArg Prod.fst hrun2
      simpa using this.symm
    rw [hres2]
    rfl

/-- The success payload of a pair call (`default` when it failed). -/
def pairRes (r : Except String PairResult × PairingState) : PairResult :=
  match r.1 with
  | .ok v => v
  | .error _ => default

/-- Whether a pair call succeeded. -/
def pairOk (r : Except String PairResult × PairingState) : Bool :=
  match r.1 with
  | .ok _ => true
  | .error _ => false

/-- Concrete first pair call for the C5 witness: empty config, valid code. -/
def c5wState0 : PairingState := ⟨some ⟨"042137", 300⟩, ⟨[], ⟨"", 0⟩⟩⟩

/-- Its run. -/
def c5wRun1 : Except String PairResult × PairingState :=
  PairDevice xWitness (List.replicate 32 1) 0 "dev-1" "Phone" "042137"
    (List.replicate 32 2) true [] c5wState0

/-- Concrete second pair call on the resulting config with a fresh code. -/
def c5wState1 : PairingState := ⟨some ⟨"000001", 600⟩, c5wRun1.2.config⟩

/-- Its run. -/
def c5wRun2 : Except String PairResult × PairingState :=
  PairDevice xWitness (List.replicate 32 9) 10 "dev-2" "Tablet" "000001"
    (List.replicate 32 3) false ["net"] c5wState1

/-- Witness for C5 on the two concrete pair calls. -/
theorem c5_pair_persists_camera_keypair_witness :
    Config.GetKey c5wRun1.2.config "cameraPrivateKey" =
      some (.bytes (List.replicate 32 1)) ∧
    Config.GetKey c5wRun1.2.config "cameraPublicKey" =
      some (.bytes (xWitness (List.replicate 32 1) basepoint)) ∧
    (pairRes c5wRun1).cameraPublicKey =
      String.mk (b64encode (xWitness (List.replicate 32 1) basepoint)) ∧
    Config.GetKey c5wRun2.2.config "cameraPrivateKey" =
      some (.bytes (List.replicate 32 1)) ∧
    Config.GetKey c5wRun2.2.config "cameraPublicKey" =
      some (.bytes (xWitness (List.replicate 32 1) basepoint)) ∧
    (pairRes c5wRun2).cameraPublicKey =
      String.mk (b64encode (xWitness (List.replicate 32 1) basepoint)) :=
  c5_pair_persists_camera_keypair xWitness (List.replicate 32 1) 0 "dev-1" "Phone"
    "042137" (List.replicate 32 2) true [] c5wState0 ⟨"042137", 300⟩
    rfl rfl (by decide) (by decide)
    (pairRes c5wRun1) c5wRun1.2 rfl
    c5wState1 ⟨"000001", 600⟩ rfl 10 "dev-2" "Tablet" "000001"
    (List.replicate 32 3) (List.replicate 32 9) false ["net"]
    rfl rfl (by decide)
    (pairRes c5wRun2) c5wRun2.2 rfl

/-- C6 (amended): a successful pair invalidates the matched code before
returning (the stored code becomes absent), so any pair attempt on the
resulting state — with no intervening `GetCode` — fails with
`"invalid or expired code"`; a rejected pair attempt (wrong or expired code)
returns the state unchanged, leaving the stored code as it was; and a
subsequent `GetCode` generates and returns a fresh 6-digit code drawn from
the CSPRNG (which is not guaranteed to differ from the consumed code). -/
theorem c6_pair_invalidates_code
    (X : List Nat → List Nat → List Nat) (privRand : List Nat) (now : Nat)
    (id name code : String) (pk : List Nat) (w : Bool) (nets : List String)
    (s : PairingState) (c : PairingCodeR)
    (hcode : s.code = some c) (hmatch : c.code = code) (hexp : ¬ now > c.expiresAt)
    (res : PairResult) (s1 : PairingState)
    (hrun : PairDevice X privRand now id name code pk w nets s = (.ok res, s1))
    (X2 : List Nat → List Nat → List Nat) (priv2 : List Nat) (now2 : Nat)
    (id2 name2 code2 : String) (pk2 : List Nat) (w2 : Bool) (nets2 : List String)
    (X3 : List Nat → List Nat → List Nat) (priv3 : List Nat) (now3 : Nat)
    (id3 name3 code3 : String) (pk3 : List Nat) (w3 : Bool) (nets3 : List String)
    (s3 : PairingState) (c3 : PairingCodeR)
    (hc3 : s3.code = some c3) (hbad3 : c3.code ≠ code3 ∨ now3 > c3.expiresAt)
    (now4 : Nat) (r0 r1 r2 r3 : Fin 256) :
    s1.code = none ∧
    PairDevice X2 priv2 now2 id2 name2 code2 pk2 w2 nets2 s1 =
      (.error "invalid or expired code", s1) ∧
    PairDevice X3 priv3 now3 id3 name3 code3 pk3 w3 nets3 s3 =
      (.error "invalid or expired code", s3) ∧
    GetCode s1 now4 r0 r1 r2 r3 =
      (format06 (randomInt 0 999999 r0 r1 r2 r3),
       ⟨some ⟨format06 (randomInt 0 999999 r0 r1 r2 r3), now4 + codeExpiry⟩,
        s1.config⟩) := by
  have hinv : codeInvalid s.code code now = false := by
    rw [hcode]; simp [codeInvalid, hmatch, hexp]
  rw [PairDevice] at hrun
  simp only [hinv, Bool.false_eq_true, if_false] at hrun
  have hs1code : s1.code = none := by
    rcases hk : Config.GetKey s.config "cameraPublicKey" with _ | v <;>
      · rw [hk] at hrun
        have := congrArg (fun p => p.2.code) hrun
        simpa using this.symm
  refine ⟨hs1code, ?_, ?_, ?_⟩
  · rw [PairDevice]
    simp [codeInvalid, hs1code]
  · have hinv3 : codeInvalid s3.code code3 now3 = true := by
      rw [hc3]
      simp only [codeInvalid, Bool.or_eq_true, bne_iff_ne, decide_eq_true_eq]
      exact hbad3
    rw [PairDevice]
    simp [hinv3]
  · simp only [GetCode, hs1code]

/-- Witness for C6 on a concrete successful pair, a concrete retry, a
concrete rejected attempt, and a concrete `GetCode`. -/
theorem c6_pair_invalidates_code_witness :
    c5wRun1.2.code = none ∧
    PairDevice xWitness (List.replicate 32 4) 20 "dev-2" "Tablet" "042137"
      (List.replicate 32 5) true [] c5wRun1.2 =
      (.error "invalid or expired code", c5wRun1.2) ∧
    PairDevice xWitness (List.replicate 32 4) 0 "dev-3" "Pad" "999999"
      (List.replicate 32 5) true [] ⟨some ⟨"123456", 300⟩, ⟨[], ⟨"", 0⟩⟩⟩ =
      (.error "invalid or expired code", ⟨some ⟨"123456", 300⟩, ⟨[], ⟨"", 0⟩⟩⟩) ∧
    GetCode c5wRun1.2 30 0 0 0 0 =
      (format06 (randomInt 0 999999 0 0 0 0),
       ⟨some ⟨format06 (randomInt 0 999999 0 0 0 0), 30 + codeExpiry⟩,
        c5wRun1.2.config⟩) :=
  c6_pair_invalidates_code xWitness (List.replicate 32 1) 0 "dev-1" "Phone"
    "042137" (List.replicate 32 2) true [] c5wState0 ⟨"042137", 300⟩
    rfl rfl (by decide) (pairRes c5wRun1) c5wRun1.2 rfl
    xWitness (List.replicate 32 4) 20 "dev-2" "Tablet" "042137"
    (List.replicate 32 5) true []
    xWitness (List.replicate 32 4) 0 "dev-3" "Pad" "999999"
    (List.replicate 32 5) true []
    ⟨some ⟨"123456", 300⟩, ⟨[], ⟨"", 0⟩⟩⟩ ⟨"123456", 300⟩
    rfl (by decide) 30 0 0 0 0

/-- C6 counterexample: the claim says a subsequent `get_code` returns a new,
*different* code.  With the CSPRNG drawing zero bytes, the code regenerated
after a successful pair that consumed `"000000"` is again `"000000"`, equal
to the consumed code (and usable for a further pairing). -/
theorem c6_counterexample :
    pairOk (PairDevice xWitness (List.replicate 32 1) 0 "dev-1" "Phone" "000000"
      (List.replicate 32 2) true [] ⟨some ⟨"000000", 300⟩, ⟨[], ⟨"", 0⟩⟩⟩) = true ∧
    (GetCode (PairDevice xWitness (List.replicate 32 1) 0 "dev-1" "Phone" "000000"
      (List.replicate 32 2) true [] ⟨some ⟨"000000", 300⟩, ⟨[], ⟨"", 0⟩⟩⟩).2
      1 0 0 0 0).1 = "000000" := by
  refine ⟨by decide, by decide⟩

/-! ## `relaycomm` client (src/unnamed/part_010, second revision: `Send`
lines 235-240, `connectLoop` lines 242-278)

`Send` checks only whether `r.conn` is `nil`; nothing in src/ ever resets
`r.conn` to `nil` — after a read error `handleMessages` returns and
`connectLoop` sleeps and redials, leaving the stale `*websocket.Conn` in
place until the next successful `connect` overwrites it.  The outcome the
transport would return for a `WriteJSON` on the current socket is carried in
the connection model; no `Stop` method exists in src/, so `stop()` is
modelled from the spec. -/

/-- What the transport returns for the next `WriteJSON` on this socket. -/
inductive WriteOutcome
  | ok
  | ioError (e : String)
  deriving DecidableEq

/-- A connected socket (`*websocket.Conn`) with its transport state. -/
structure Conn where
  nextWrite : WriteOutcome
  deriving DecidableEq

/-- An outbound relay envelope (`relaycomm.Message`, second revision). -/
structure Message where
  typ : String
  target : String
  productId : String
  deviceId : String
  encryptedPayload : String
  deriving DecidableEq

/-- The relay client's state. -/
structure RelayState where
  running : Bool
  conn : Option Conn
  deriving DecidableEq

/-- The result `conn.WriteJSON(msg)` yields on this socket. -/
def connWriteResult (c : Conn) : Option String :=
  match c.nextWrite with
  | .ok => none
  | .ioError e => some e

/-- `RelayComm.Send`: error `"not connected"` iff `r.conn == nil`, otherwise
the result of `conn.WriteJSON`; the state is never modified — there is no
buffer or retry queue. -/
def RelayComm.Send (s : RelayState) (_msg : Message) : Option String × RelayState :=
  match s.conn with
  | none => (some "not connected", s)
  | some c => (connWriteResult c, s)

/-- `RelayComm.Start`: reject if already running or the relay domain is not
configured; otherwise mark running (the connect loop runs as the events
below). -/
def RelayComm.Start (s : RelayState) (relayDomain : Option CVal) :
    Except String RelayState :=
  if s.running then .error "already running"
  else
    match relayDomain with
    | none => .error "relay domain not configured"
    | some _ => .ok { s with running := true }

/-- Modelled from the spec: `stop()` — no `Stop` method exists in src/ (only
the `stopChan` reads in `connectLoop`); per spec §4.E it closes the socket
and terminates the loops, and per §5 in-flight writes after `stop()` fail
with `NotConnected`, so it clears the connection. -/
def relayStop (_s : RelayState) : RelayState := ⟨false, none⟩

/-- Events of the connect loop and its environment. -/
inductive RelayEv
  | connectOk (c : Conn)
  | connectFail
  | readLoopExit
  | sockBreak (e : String)
  | stop

/-- One step of the relay client: `connect` sets `r.conn` on success;
a failed dial or a read-loop exit (EOF / I/O error) leaves the state — and
in particular the stale `r.conn` — untouched; a socket break makes future
writes on the current connection fail; `stop` is the spec-modelled
`relayStop`. -/
def relayStep (s : RelayState) : RelayEv → RelayState
  | .connectOk c => { s with conn := some c }
  | .connectFail => s
  | .readLoopExit => s
  | .sockBreak e => { s with conn := s.conn.map (fun _ => ⟨.ioError e⟩) }
  | .stop => relayStop s

/-- C7 (amended): `Send` fails with the `"not connected"` error exactly when
no connection object is set — before any successful connect and after the
spec-modelled `stop()`; after an I/O error or EOF and before the reconnect
succeeds, the stale connection remains set and `Send` returns whatever the
transport write yields (not `"not connected"`); in every case the message is
not buffered: `Send` leaves the state unchanged. -/
theorem c7_send_not_connected (s1 s2 s3 : RelayState) (m1 m2 m3 : Message)
    (c : Conn) (h1 : s1.conn = none) (h2 : s2.conn = some c) :
    RelayComm.Send s1 m1 = (some "not connected", s1) ∧
    RelayComm.Send (relayStep s3 RelayEv.stop) m3 =
      (some "not connected", relayStep s3 RelayEv.stop) ∧
    RelayComm.Send s2 m2 = (connWriteResult c, s2) ∧
    (RelayComm.Send s1 m1).2 = s1 ∧ (RelayComm.Send s2 m2).2 = s2 := by
  refine ⟨?_, rfl, ?_, ?_, ?_⟩
  · simp only [RelayComm.Send, h1]
  · simp only [RelayComm.Send, h2]
  · simp only [RelayComm.Send, h1]
  · simp only [RelayComm.Send, h2]

/-- Witness for C7 at concrete states. -/
theorem c7_send_not_connected_witness :
    RelayComm.Send ⟨false, none⟩ ⟨"a", "", "", "", ""⟩ =
      (some "not connected", (⟨false, none⟩ : RelayState)) ∧
    RelayComm.Send (relayStep ⟨true, some ⟨.ok⟩⟩ RelayEv.stop) ⟨"c", "", "", "", ""⟩ =
      (some "not connected", relayStep ⟨true, some ⟨.ok⟩⟩ RelayEv.stop) ∧
    RelayComm.Send ⟨true, some ⟨.ioError "broken pipe"⟩⟩ ⟨"b", "", "", "", ""⟩ =
      (connWriteResult ⟨.ioError "broken pipe"⟩, (⟨true, some ⟨.ioError "broken pipe"⟩⟩ : RelayState)) ∧
    (RelayComm.Send ⟨false, none⟩ ⟨"a", "", "", "", ""⟩).2 = (⟨false, none⟩ : RelayState) ∧
    (RelayComm.Send ⟨true, some ⟨.ioError "broken pipe"⟩⟩ ⟨"b", "", "", "", ""⟩).2 =
      (⟨true, some ⟨.ioError "broken pipe"⟩⟩ : RelayState) :=
  c7_send_not_connected ⟨false, none⟩ ⟨true, some ⟨.ioError "broken pipe"⟩⟩
    ⟨true, some ⟨.ok⟩⟩ ⟨"a", "", "", "", ""⟩ ⟨"b", "", "", "", ""⟩
    ⟨"c", "", "", "", ""⟩ ⟨.ioError "broken pipe"⟩ rfl rfl

/-- C7 counterexample: the claim says every `Send` during an outage (after an
I/O error / EOF, before the reconnect succeeds) fails with the NotConnected
error.  In the state reached by connect-ok, socket break, read-loop exit, the
stale connection is still set and `Send` returns the transport's
`"broken pipe"` error — not `"not connected"`. -/
theorem c7_counterexample :
    (relayStep (relayStep (relayStep ⟨true, none⟩ (.connectOk ⟨.ok⟩))
      (.sockBreak "broken pipe")) .readLoopExit).conn ≠ none ∧
    (RelayComm.Send (relayStep (relayStep (relayStep ⟨true, none⟩
      (.connectOk ⟨.ok⟩)) (.sockBreak "broken pipe")) .readLoopExit)
      ⟨"t", "", "", "", ""⟩).1 = some "broken pipe" ∧
    (RelayComm.Send (relayStep (relayStep (relayStep ⟨true, none⟩
      (.connectOk ⟨.ok⟩)) (.sockBreak "broken pipe")) .readLoopExit)
      ⟨"t", "", "", "", ""⟩).1 ≠ some "not connected" := by
  refine ⟨by decide, by decide, by decide⟩

/-! ## Viewer / stream fan-out (src/unnamed/part_010, final revision:
`addViewer` lines 356-365, `removeViewer` lines 368-373)

`addViewer` and `removeViewer` are in src/, but the handler revision that
calls them (a `handleStartStream` that registers the caller as a viewer and
starts the capture pipeline only for the first viewer) is not — the
`handleStartStream` present in src/pkg/relaycomm/handlers.go predates the
viewer set and streams directly to its caller.  The wiring of the viewer set
to the capture pipeline is therefore modelled from the spec (§4.G). -/

/-- `maxViewers = 3`. -/
def maxViewers : Nat := 3

/-- Viewer set (device IDs, Go map keys) plus whether the capture pipeline
is producing. -/
structure StreamSys where
  viewerIds : List String
  pipeline : Bool
  deriving DecidableEq

/-- `addViewer`: fail with `viewer limit reached (len/max)` when the map
already holds `maxViewers` entries, else insert (map insert: re-adding a
present ID does not grow the key set). -/
def addViewer (s : StreamSys) (deviceId : String) : Except String StreamSys :=
  if s.viewerIds.length ≥ maxViewers then
    .error ("viewer limit reached (" ++ toString s.viewerIds.length ++ "/" ++
      toString maxViewers ++ ")")
  else
    .ok { s with viewerIds :=
      if deviceId ∈ s.viewerIds then s.viewerIds else s.viewerIds ++ [deviceId] }

/-- `removeViewer`: delete the entry, report whether no viewers remain. -/
def removeViewer (s : StreamSys) (deviceId : String) : StreamSys × Bool :=
  let v := s.viewerIds.filter (fun id => id ≠ deviceId)
  ({ s with viewerIds := v }, v.isEmpty)

/-- Modelled from the spec: `startStream` wiring (§4.G `add_viewer`) — the
revision of `handleStartStream` that calls `addViewer` is absent from src/.
On success, if this was the first viewer, start the capture pipeline. -/
def startStream (s : StreamSys) (deviceId : String) :
    Except String Unit × StreamSys :=
  match addViewer s deviceId with
  | .error e => (.error e, s)
  | .ok s' => (.ok (), if s.viewerIds.isEmpty then { s' with pipeline := true } else s')

/-- Modelled from the spec: `stopStream` wiring (§4.G `remove_viewer`) — on
removing the last viewer, stop the capture pipeline. -/
def stopStream (s : StreamSys) (deviceId : String) : StreamSys :=
  let (s', last) := removeViewer s deviceId
  if last then { s' with pipeline := false } else s'

/-- States reachable from no viewers / pipeline stopped through any
interleaving of start and stop requests. -/
inductive StreamReachable : StreamSys → Prop
  | init : StreamReachable ⟨[], false⟩
  | start (s : StreamSys) (id : String) (h : StreamReachable s) :
      StreamReachable (startStream s id).2
  | stop (s : StreamSys) (id : String) (h : StreamReachable s) :
      StreamReachable (stopStream s id)

theorem streamInvariant (s : StreamSys) (h : StreamReachable s) :
    s.viewerIds.length ≤ maxViewers ∧ (s.pipeline = true ↔ s.viewerIds ≠ []) := by
  induction h with
  | init => simp
  | start s id _ ih =>
      simp only [startStream, addViewer]
      by_cases hfull : s.viewerIds.length ≥ maxViewers
      · simp only [if_pos hfull]
        exact ih
      · simp only [if_neg hfull]
        by_cases hempty : s.viewerIds.isEmpty
        · have hnil : s.viewerIds = [] := List.isEmpty_iff.mp hempty
          simp only [if_pos hempty]
          constructor
          · simp [hnil, maxViewers]
          · simp [hnil]
        · have hne : s.viewerIds ≠ [] := by
            intro hv; rw [hv] at hempty; simp at hempty
          simp only [if_neg hempty]
          constructor
          · by_cases hmem : id ∈ s.viewerIds
            · simpa [hmem] using ih.1
            · simp only [hmem, if_false, List.length_append, List.length_singleton]
              omega
          · constructor
            · intro _
              by_cases hmem : id ∈ s.viewerIds <;> simp [hmem, hne]
            · intro _
              exact ih.2.mpr hne
  | stop s id _ ih =>
      rw [stopStream, removeViewer]
      by_cases hlast : (s.viewerIds.filter (fun i => i ≠ id)).isEmpty
      · simp only [hlast, if_true]
        constructor
        · calc (s.viewerIds.filter (fun i => i ≠ id)).length
              ≤ s.viewerIds.length := List.length_filter_le _ _
            _ ≤ maxViewers := ih.1
        · constructor
          · intro hcontra; cases hcontra
          · intro hne
            exact absurd (List.isEmpty_iff.mp hlast) hne
      · simp only [hlast, if_false]
        constructor
        · calc (s.viewerIds.filter (fun i => i ≠ id)).length
              ≤ s.viewerIds.length := List.length_filter_le _ _
            _ ≤ maxViewers := ih.1
        · have hne : s.viewerIds.filter (fun i => i ≠ id) ≠ [] := by
            intro hv; rw [hv] at hlast; simp at hlast
          have hsne : s.viewerIds ≠ [] := by
            intro hv
            apply hne
            rw [hv, List.filter_nil]
          constructor
          · intro _; exact hne
          · intro _; exact ih.2.mpr hsne

/-- C2 (part): at a full viewer set, `startStream` fails with the exact
`viewer limit reached (3/3)` reply and changes nothing. -/
theorem startStream_at_limit (s : StreamSys) (id : String)
    (h3 : s.viewerIds.length = 3) :
    startStream s id = (.error "viewer limit reached (3/3)", s) := by
  rw [startStream, addViewer, if_pos (by rw [h3]; decide), h3]
  rfl

/-- C2: every reachable state holds at most `MAX_VIEWERS = 3` viewers and
the capture pipeline runs iff the viewer set is non-empty (so a `stopStream`
by one of several viewers leaves it running and the last viewer's
`stopStream` stops it); a `startStream` when 3 viewers are registered fails
with `viewer limit reached (3/3)` and changes nothing. -/
theorem c2_viewer_cap_and_pipeline (s s3 : StreamSys) (id : String)
    (h : StreamReachable s) (_h3r : StreamReachable s3)
    (h3 : s3.viewerIds.length = 3) :
    s.viewerIds.length ≤ maxViewers ∧ (s.pipeline = true ↔ s.viewerIds ≠ []) ∧
    startStream s3 id = (.error "viewer limit reached (3/3)", s3) :=
  ⟨(streamInvariant s h).1, (streamInvariant s h).2, startStream_at_limit s3 id h3⟩

/-- Witness for C2: three viewers join (reaching the cap), V4 is rejected
with the exact error, V1 leaves with the pipeline still running, and after
V2 and V3 leave the pipeline is stopped. -/
theorem c2_viewer_cap_and_pipeline_witness :
    (stopStream (startStream (startStream (startStream ⟨[], false⟩ "v1").2
        "v2").2 "v3").2 "v1").viewerIds.length ≤ maxViewers ∧
    ((stopStream (startStream (startStream (startStream ⟨[], false⟩ "v1").2
        "v2").2 "v3").2 "v1").pipeline = true ↔
      (stopStream (startStream (startStream (startStream ⟨[], false⟩ "v1").2
        "v2").2 "v3").2 "v1").viewerIds ≠ []) ∧
    startStream (startStream (startStream (startStream ⟨[], false⟩ "v1").2
        "v2").2 "v3").2 "v4" =
      (.error "viewer limit reached (3/3)",
       (startStream (startStream (startStream ⟨[], false⟩ "v1").2 "v2").2 "v3").2) :=
  c2_viewer_cap_and_pipeline
    (stopStream (startStream (startStream (startStream ⟨[], false⟩ "v1").2
      "v2").2 "v3").2 "v1")
    (startStream (startStream (startStream ⟨[], false⟩ "v1").2 "v2").2 "v3").2
    "v4"
    (StreamReachable.stop _ "v1" (StreamReachable.start _ "v3"
      (StreamReachable.start _ "v2" (StreamReachable.start _ "v1"
        StreamReachable.init))))
    (StreamReachable.start _ "v3" (StreamReachable.start _ "v2"
      (StreamReachable.start _ "v1" StreamReachable.init)))
    (by decide)

/-! ## Encrypted command router (src/pkg/relaycomm/handlers.go, first
revision: `useEncryption` lines 64-155)

The middleware authenticates and decrypts every inbound envelope before the
registered handler runs.  `json.Unmarshal` is external: the frame decode is
modelled as an `Option EncryptedRequest` input, and the inner
`{"deviceId": …}` extraction as a parameter `unmarshalDeviceId` (`none` =
malformed JSON, `some s` = the `deviceId` field, `""` when absent).  Router
state is the config store (from which the device registry is derived) plus
the viewer set; error replies go out unencrypted via `Get().Send`. -/

/-- `devices.GetByID`: first record with the given ID. -/
def GetByID (c : Config) (id : String) : Option DeviceRec :=
  (getDevices c).find? (fun d => d.id = id)

/-- The decoded inbound frame (`relaycomm.EncryptedRequest`). -/
structure EncryptedRequest where
  cameraId : String
  deviceId : String
  encryptedPayload : String
  deriving DecidableEq

/-- What the router emits on the relay. -/
inductive RelayOut
  | plainResult (msgType : String) (success : Bool) (error : String)
  | encrypted (msgType : String) (deviceId : String) (encryptedPayload : String)
  deriving DecidableEq

/-- `relaycomm.HandlerContext` (minus the cached cipher object, which is a
function of the shared secret). -/
structure HandlerCtx where
  deviceId : String
  sharedSecret : List Nat
  deriving DecidableEq

/-- The router's mutable state: config store (the registry is the
`connectedDevices` entry) and the viewer set. -/
structure RouterState where
  config : Config
  viewers : List String
  deriving DecidableEq

/-- Outcome of one dispatched envelope; `panicked` marks Go's
`cameraPrivateKey.([]byte)` type assertion failing on a non-bytes value
(unreachable for configs written by this firmware). -/
inductive RouterResult
  | ok (s : RouterState) (out : List RelayOut)
  | panicked
  deriving DecidableEq

/-- `useEncryption`: unmarshal the frame, require a paired device, load the
camera private key, derive the shared secret, build the session, decrypt,
check the inner `deviceId` against the envelope's, and only then run the
handler; each failure sends one unencrypted `{success:false, error:…}` reply
of type `msgType ++ "Result"` and stops. -/
def useEncryption (E : BlockCipher) (X : List Nat → List Nat → List Nat)
    (h : List Nat → List Nat) (unmarshalDeviceId : List Nat → Option String)
    (msgType : String)
    (handler : HandlerCtx → List Nat → RouterState → RouterState × List RelayOut)
    (req? : Option EncryptedRequest) (s : RouterState) : RouterResult :=
  match req? with
  | none => .ok s [.plainResult (msgType ++ "Result") false "Invalid request format!"]
  | some req =>
    match GetByID s.config req.deviceId with
    | none => .ok s [.plainResult (msgType ++ "Result") false "Device not paired!"]
    | some device =>
      match Config.GetKey s.config "cameraPrivateKey" with
      | none =>
          .ok s [.plainResult (msgType ++ "Result") false "Camera not initialized!"]
      | some (.bytes cameraPrivateKey) =>
          match DeriveSharedSecret X h cameraPrivateKey device.publicKey with
          | .error _ =>
              .ok s [.plainResult (msgType ++ "Result") false
                "Failed to derive encryption key!"]
          | .ok sharedSecret =>
            match FromSharedSecret sharedSecret with
            | none =>
                .ok s [.plainResult (msgType ++ "Result") false
                  "Failed to create encryption session!"]
            | some key =>
              match Session.Decrypt E key req.encryptedPayload with
              | none =>
                  .ok s [.plainResult (msgType ++ "Result") false
                    "Failed to decrypt payload!"]
              | some decrypted =>
                match unmarshalDeviceId decrypted with
                | none =>
                    .ok s [.plainResult (msgType ++ "Result") false
                      "Invalid payload format!"]
                | some d =>
                    if d ≠ req.deviceId then
                      .ok s [.plainResult (msgType ++ "Result") false
                        "Device ID mismatch!"]
                    else
                      let (s', out) := handler ⟨req.deviceId, sharedSecret⟩ decrypted s
                      .ok s' out
      | some _ => .panicked

/-- C1 (amended): for every inbound envelope that authenticates and decrypts
successfully, if the `deviceId` inside the decrypted payload differs from the
envelope's outer `deviceId`, the router replies with the single unencrypted
`{success:false, error:"Device ID mismatch!"}` result, invokes no handler
(the outcome is the same for every registered handler), and mutates no state
(the config store — hence the device registry — and the viewer set are
unchanged). -/
theorem c1_device_id_mismatch (E : BlockCipher)
    (X : List Nat → List Nat → List Nat) (h : List Nat → List Nat)
    (unmarshalDeviceId : List Nat → Option String) (msgType : String)
    (handler : HandlerCtx → List Nat → RouterState → RouterState × List RelayOut)
    (req : EncryptedRequest) (s : RouterState) (device : DeviceRec)
    (cameraPrivateKey sharedSecret key pt : List Nat) (d : String)
    (hdev : GetByID s.config req.deviceId = some device)
    (hkey : Config.GetKey s.config "cameraPrivateKey" = some (.bytes cameraPrivateKey))
    (hder : DeriveSharedSecret X h cameraPrivateKey device.publicKey = .ok sharedSecret)
    (hsess : FromSharedSecret sharedSecret = some key)
    (hdec : Session.Decrypt E key req.encryptedPayload = some pt)
    (hun : unmarshalDeviceId pt = some d)
    (hne : d ≠ req.deviceId) :
    useEncryption E X h unmarshalDeviceId msgType handler (some req) s =
      .ok s [.plainResult (msgType ++ "Result") false "Device ID mismatch!"] := by
  simp only [useEncryption, hdev, hkey, hder, hsess, hdec, hun]
  rw [if_pos hne]

/-- Concrete session key for the router instances: derived exactly as the
middleware derives it. -/
def c1wKey : List Nat :=
  hkdf32 hashWitness (xWitness (List.replicate 32 1) (List.replicate 32 2))
    encryptionInfo

/-- Concrete router state: one paired device `dev-1`, camera key present. -/
def c1wState : RouterState :=
  ⟨Config.SetKey (Config.SetKey ⟨[], ⟨"", 0⟩⟩ "cameraPrivateKey"
      (some (.bytes (List.replicate 32 1)))) "connectedDevices"
      (some (.devs [⟨"dev-1", "Phone", List.replicate 32 2, [], 0, 0⟩])),
   []⟩

/-- Concrete inbound envelope: outer `deviceId = "dev-1"`, payload sealed
under the session of `dev-1`. -/
def c1wReq : EncryptedRequest :=
  ⟨"cam-1", "dev-1", Session.Encrypt constCipher c1wKey (List.replicate 12 0) [1, 2, 3]⟩

/-- Concrete inner-JSON decoder: the sealed plaintext `[1,2,3]` carries
`deviceId = "dev-2"` — a mismatch with the outer claim. -/
def c1wUnmarshal : List Nat → Option String :=
  fun b => if b = [1, 2, 3] then some "dev-2" else none

/-- Witness for C1 on the concrete mismatching envelope. -/
theorem c1_device_id_mismatch_witness :
    useEncryption constCipher xWitness hashWitness c1wUnmarshal "getDevices"
      (fun _ _ st => (st, [])) (some c1wReq) c1wState =
      .ok c1wState [.plainResult "getDevicesResult" false "Device ID mismatch!"] :=
  c1_device_id_mismatch constCipher xWitness hashWitness c1wUnmarshal "getDevices"
    (fun _ _ st => (st, [])) c1wReq c1wState
    ⟨"dev-1", "Phone", List.replicate 32 2, [], 0, 0⟩
    (List.replicate 32 1) c1wKey c1wKey [1, 2, 3] "dev-2"
    (by decide) (by decide) rfl rfl (by decide) (by decide) (by decide)

/-- C1 counterexample: the claim states the unencrypted reply is
`{success:false, error:"Device ID mismatch"}`, but the cited revision replies
with the string `"Device ID mismatch!"` — the two differ. -/
theorem c1_counterexample :
    useEncryption constCipher xWitness hashWitness c1wUnmarshal "getDevices"
      (fun _ _ st => (st, [])) (some c1wReq) c1wState =
      .ok c1wState [.plainResult "getDevicesResult" false "Device ID mismatch!"] ∧
    ("Device ID mismatch!" : String) ≠ "Device ID mismatch" := by
  refine ⟨by decide, by decide⟩

end RootFirmware
